import Mathlib

/-!
# Verification of the pyubx2 UBX stream reader

Shallow embedding of `src/pyubx2.py` (a minimal UBX message reader) and
proofs about its behaviour.  Bytes are modelled as natural numbers and byte
strings as `List Nat`; Python streams are modelled as an abstract read
operation that may either return a chunk of bytes (possibly shorter than
requested, as Python `read` does at end of stream) or raise an exception.
-/

namespace PyUbx2

/-- A byte string (Python `bytes`): a list of byte values. -/
abbrev Bytes := List Nat

/-- `UBX_HDR = b"\xb5\x62"` — the UBX sync header (src/pyubx2.py line 25). -/
def UBX_HDR : Bytes := [0xb5, 0x62]

/-- Python `byteorder` argument of `int.from_bytes` / `int.to_bytes`. -/
inductive ByteOrder where
  | little
  | big
deriving DecidableEq, Repr

/-- Python `int.from_bytes(bs, byteorder)` for non-negative values:
big-endian is a left fold `acc * 256 + b`; little-endian is the same fold
over the reversed byte string. -/
def intFromBytes (bs : Bytes) (bo : ByteOrder) : Nat :=
  match bo with
  | .big => bs.foldl (fun acc b => acc * 256 + b) 0
  | .little => bs.reverse.foldl (fun acc b => acc * 256 + b) 0

/-- Little-endian digits of `v` in base 256, `n` bytes, least significant
first (the byte string produced by `int.to_bytes(n, "little")`). -/
def leDigits : Nat → Nat → Bytes
  | 0, _ => []
  | n + 1, v => v % 256 :: leDigits n (v / 256)

/-- Python `val.to_bytes(length, byteorder)` for non-negative values;
`none` models the `OverflowError` raised when the value does not fit. -/
def intToBytes (val leng : Nat) (bo : ByteOrder) : Option Bytes :=
  if val < 256 ^ leng then
    some (match bo with
      | .little => leDigits leng val
      | .big => (leDigits leng val).reverse)
  else none

/-- `bytes2val` (src/pyubx2.py lines 154-158): little-endian when
`bitfield` is true, big-endian otherwise.  The Python default for
`bitfield` is `False`. -/
def bytes2val (bytesval : Bytes) (bitfield : Bool) : Nat :=
  if bitfield then intFromBytes bytesval .little
  else intFromBytes bytesval .big

/-- `bytes2val` called with its default flag (`bitfield=False`). -/
def bytes2valDefault (bytesval : Bytes) : Nat :=
  bytes2val bytesval false

/-- `val2bytes` (src/pyubx2.py lines 161-165): little-endian when
`bitfield` is true, big-endian otherwise; `none` models the
`OverflowError` from `int.to_bytes`. -/
def val2bytes (val leng : Nat) (bitfield : Bool) : Option Bytes :=
  if bitfield then intToBytes val leng .little
  else intToBytes val leng .big

/-- The `UBXMessage` object (src/pyubx2.py lines 169-180): fields set by
`__init__`. -/
structure UBXMessage where
  msgclass : Nat
  msgid : Nat
  payload : Bytes
  length : Nat
deriving DecidableEq, Repr

/-- `UBXMessage.__init__` (src/pyubx2.py lines 172-176).  The `payload`
parameter defaults to `None`; the body stores `payload if payload else
b""` (both `None` and the empty byte string are falsy) and sets
`self.length = len(self.payload)`. -/
def UBXMessage.make (msgclass msgid : Nat) (payload : Option Bytes) : UBXMessage :=
  let p : Bytes :=
    match payload with
    | none => []
    | some bs => if bs = [] then [] else bs
  { msgclass := msgclass, msgid := msgid, payload := p, length := p.length }

/-- An abstract byte stream with state type `σ`: `read n` either returns
up to `n` bytes together with the successor state, or raises (modelled by
`Except.error` carrying the exception message). -/
structure ByteStream (σ : Type) where
  read : Nat → σ → Except String (Bytes × σ)

/-- An in-memory stream over a fixed byte string (Python `io.BytesIO`):
the state is the sequence of bytes not yet consumed; `read n` returns the
next `min n remaining` bytes and never raises. -/
def bytesStream : ByteStream Bytes :=
  ⟨fun n s => .ok (s.take n, s.drop n)⟩

/-- The `UBXReader` object (src/pyubx2.py lines 187-198): the stream plus
the keyword options recorded by `__init__`, with their Python defaults. -/
structure UBXReader (σ : Type) where
  stream : ByteStream σ
  msgclass : Option Nat := none
  msgid : Option Nat := none
  quitonerror : Bool := false
  validate : Bool := true
  msgmode : Nat := 0
  ubxonly : Bool := false
  parsebitfield : Bool := true
  scaling : Bool := true
  labelmsm : Bool := true
  hpnmeamode : Nat := 0

/-- Result of one `UBXReader.read` call: a message, Python `None`, or a
propagated `UBXStreamError`. -/
inductive ReadResult where
  | msg (m : UBXMessage)
  | nomsg
  | err (e : String)
deriving DecidableEq, Repr

/-- The body of the `try:` block of `UBXReader.read` (src/pyubx2.py lines
202-222): read the 2-byte header (returning `None` when it differs from
`UBX_HDR`), then class, id, 2-byte little-endian length, `length` payload
bytes and 2 checksum bytes, and build the `UBXMessage`.  An
`Except.error` is an exception escaping the block. -/
def UBXReader.readBody {σ : Type} (r : UBXReader σ) (s : σ) :
    Except String (Option UBXMessage × σ) :=
  match r.stream.read 2 s with
  | .error e => .error e
  | .ok (header, s1) =>
    if header ≠ UBX_HDR then .ok (none, s1)
    else
      match r.stream.read 1 s1 with
      | .error e => .error e
      | .ok (cb, s2) =>
        let mc := intFromBytes cb .little
        match r.stream.read 1 s2 with
        | .error e => .error e
        | .ok (ib, s3) =>
          let mi := intFromBytes ib .little
          match r.stream.read 2 s3 with
          | .error e => .error e
          | .ok (lb, s4) =>
            let leng := intFromBytes lb .little
            match r.stream.read leng s4 with
            | .error e => .error e
            | .ok (payload, s5) =>
              match r.stream.read 2 s5 with
              | .error e => .error e
              | .ok (_checksum, s6) =>
                .ok (some (UBXMessage.make mc mi (some payload)), s6)

/-- `UBXReader.read` (src/pyubx2.py lines 200-227): run the `try:` body;
on an exception, re-raise it wrapped as `UBXStreamError` when
`quitonerror` is set, otherwise return `None`.  The second component is
the stream state after a normal return (`none` after an exception). -/
def UBXReader.read {σ : Type} (r : UBXReader σ) (s : σ) :
    ReadResult × Option σ :=
  match r.readBody s with
  | .ok (some m, s') => (.msg m, some s')
  | .ok (none, s') => (.nomsg, some s')
  | .error e =>
    if r.quitonerror then (.err ("Error reading UBX message: " ++ e), none)
    else (.nomsg, none)

/-- Modelled from the spec: the `ChecksumEngine.compute` operation is
absent from src/pyubx2.py (the reader never verifies checksums), so it is
transcribed from spec §4.1: two 8-bit accumulators over
`[class, id, length_lo, length_hi] ++ payload`. -/
def ubxChecksum (msgclass msgid leng : Nat) (payload : Bytes) : Nat × Nat :=
  ([msgclass, msgid, leng % 256, leng / 256 % 256] ++ payload).foldl
    (fun (ck : Nat × Nat) b =>
      let cka := (ck.1 + b) % 256
      (cka, (ck.2 + cka) % 256))
    (0, 0)

/-- Assemble a full UBX wire frame from class, id, payload and an
arbitrary trailing checksum pair (spec §6 wire format). -/
def mkFrame (c i : Nat) (pl ck : Bytes) : Bytes :=
  UBX_HDR ++ [c, i] ++ leDigits 2 pl.length ++ pl ++ ck

/-- Little-endian place value of a byte string, least significant byte
first: the mathematical meaning of the little-endian byte order. -/
def leValue : Bytes → Nat
  | [] => 0
  | b :: bs => b + 256 * leValue bs

/-- Wire-frame header without its payload: sync bytes, class, id and a
declared 2-byte little-endian length field (spec §6); used to build frames
whose declared length differs from the payload bytes present. -/
def frameHeader (c i declared : Nat) : Bytes :=
  UBX_HDR ++ [c, i] ++ leDigits 2 declared

/-- A stream whose read operation always raises, modelling an I/O
exception from the underlying transport. -/
def boomStream : ByteStream Unit :=
  ⟨fun _ _ => .error "boom"⟩

end PyUbx2

namespace PyUbx2


theorem intFromBytes_little (bs : Bytes) : intFromBytes bs .little = leValue bs := by
  rw [intFromBytes, List.foldl_reverse]
  induction bs with
  | nil => rfl
  | cons b bs ih => simp [leValue, ih]; ring

theorem leValue_leDigits (n v : Nat) (h : v < 256 ^ n) : leValue (leDigits n v) = v := by
  induction n generalizing v with
  | zero => simp [pow_zero] at h; simp [leDigits, leValue, h]
  | succ n ih =>
      rw [leDigits, leValue, ih (v / 256) (by
        rw [Nat.div_lt_iff_lt_mul (by norm_num)]
        calc v < 256 ^ (n + 1) := h
        _ = 256 ^ n * 256 := by ring)]
      omega

theorem lenRoundtrip (n : Nat) (h : n < 65536) :
    intFromBytes [n % 256, n / 256 % 256] .little = n := by
  rw [intFromBytes_little]
  simp [leValue]
  omega

theorem readBody_frame (r : UBXReader Bytes) (hs : r.stream = bytesStream)
    (c i l0 l1 : Nat) (pl ck rest : Bytes)
    (hlen : intFromBytes [l0, l1] .little = pl.length) (hck : ck.length = 2) :
    r.readBody (0xb5 :: 0x62 :: c :: i :: l0 :: l1 :: (pl ++ (ck ++ rest)))
      = .ok (some (UBXMessage.make c i (some pl)), rest) := by
  simp only [UBXReader.readBody, hs, bytesStream, List.take_succ_cons, List.drop_succ_cons,
    List.take_zero, List.drop_zero]
  rw [hlen]
  simp [UBX_HDR, List.take_left, List.drop_left, List.drop_left' hck,
    intFromBytes_little, leValue]

theorem make_some (c i : Nat) (pl : Bytes) :
    UBXMessage.make c i (some pl) = ⟨c, i, pl, pl.length⟩ := by
  by_cases h : pl = [] <;> simp [UBXMessage.make, h]

theorem mkFrame_cons (c i : Nat) (pl ck : Bytes) :
    mkFrame c i pl ck
      = 0xb5 :: 0x62 :: c :: i :: pl.length % 256 :: pl.length / 256 % 256 :: (pl ++ ck) := by
  simp [mkFrame, leDigits, UBX_HDR]

theorem read_mkFrame (r : UBXReader Bytes) (hs : r.stream = bytesStream)
    (c i : Nat) (pl ck rest : Bytes) (hpl : pl.length < 65536) (hck : ck.length = 2) :
    r.read (mkFrame c i pl ck ++ rest) = (.msg ⟨c, i, pl, pl.length⟩, some rest) := by
  have hfrm : mkFrame c i pl ck ++ rest
      = 0xb5 :: 0x62 :: c :: i :: pl.length % 256 :: pl.length / 256 % 256 :: (pl ++ (ck ++ rest)) := by
    rw [mkFrame_cons]; simp
  have hb : r.readBody (mkFrame c i pl ck ++ rest)
      = .ok (some (UBXMessage.make c i (some pl)), rest) := by
    rw [hfrm]
    exact readBody_frame r hs c i _ _ pl ck rest (lenRoundtrip pl.length hpl) hck
  simp [UBXReader.read, hb, make_some]



theorem beFold (bs : Bytes) (acc : Nat) :
    bs.foldl (fun a b => a * 256 + b) acc
      = acc * 256 ^ bs.length
        + ∑ i in Finset.range bs.length, bs.getD i 0 * 256 ^ (bs.length - 1 - i) := by
  induction bs generalizing acc with
  | nil => simp
  | cons b bs ih =>
      rw [List.foldl_cons, ih, List.length_cons, Finset.sum_range_succ']
      simp only [List.getD_cons_succ, List.getD_cons_zero]
      have he : ∀ i, (bs.length + 1) - 1 - (i + 1) = bs.length - 1 - i := by omega
      have he0 : (bs.length + 1) - 1 - 0 = bs.length := by omega
      simp only [he, he0]
      ring

theorem intFromBytes_big_sum (bs : Bytes) :
    intFromBytes bs .big
      = ∑ i in Finset.range bs.length, bs.getD i 0 * 256 ^ (bs.length - 1 - i) := by
  rw [intFromBytes]
  rw [beFold bs 0]
  simp

theorem intFromBytes_big_reverse (bs : Bytes) :
    intFromBytes bs.reverse .big = intFromBytes bs .little := rfl

theorem leValue_sum (bs : Bytes) :
    leValue bs = ∑ i in Finset.range bs.length, bs.getD i 0 * 256 ^ i := by
  induction bs with
  | nil => simp [leValue]
  | cons b bs ih =>
      rw [leValue, ih, List.length_cons, Finset.sum_range_succ']
      simp only [List.getD_cons_succ, List.getD_cons_zero, pow_succ, pow_zero, one_mul, mul_one]
      rw [Finset.mul_sum, add_comm]
      congr 1
      refine Finset.sum_congr rfl ?h
      intro x _
      ring

theorem val2bytes_roundtrip (v n : Nat) (f : Bool) (h : v < 256 ^ n) :
    (val2bytes v n f).map (fun bs => bytes2val bs f) = some v := by
  cases f with
  | true =>
      simp only [val2bytes, intToBytes, if_pos h, Option.map_some]
      simp [bytes2val, intFromBytes_little, leValue_leDigits n v h]
  | false =>
      simp only [val2bytes, intToBytes, if_pos h, Option.map_some]
      simp [bytes2val, intFromBytes_big_reverse, intFromBytes_little, leValue_leDigits n v h]



theorem readBody_truncated (r : UBXReader Bytes) (hs : r.stream = bytesStream)
    (c i n : Nat) (hn : n < 65536) (rest : Bytes) (h : rest.length ≤ n) :
    r.readBody (0xb5 :: 0x62 :: c :: i :: n % 256 :: n / 256 % 256 :: rest)
      = .ok (some (UBXMessage.make c i (some rest)), []) := by
  simp only [UBXReader.readBody, hs, bytesStream, List.take_succ_cons, List.drop_succ_cons,
    List.take_zero, List.drop_zero]
  rw [lenRoundtrip n hn]
  simp [UBX_HDR, List.take_of_length_le h, List.drop_eq_nil_of_le h,
    intFromBytes_little, leValue]

theorem read_truncated (r : UBXReader Bytes) (hs : r.stream = bytesStream)
    (c i n : Nat) (hn : n < 65536) (rest : Bytes) (h : rest.length ≤ n) :
    r.read (frameHeader c i n ++ rest) = (.msg ⟨c, i, rest, rest.length⟩, some []) := by
  have hfrm : frameHeader c i n ++ rest
      = 0xb5 :: 0x62 :: c :: i :: n % 256 :: n / 256 % 256 :: rest := by
    simp [frameHeader, leDigits, UBX_HDR]
  have hb := readBody_truncated r hs c i n hn rest h
  rw [hfrm] at *
  simp [UBXReader.read, hb, make_some]

theorem read_no_resync (r : UBXReader Bytes) (hs : r.stream = bytesStream)
    (g1 g2 : Nat) (h : [g1, g2] ≠ UBX_HDR) (rest : Bytes) :
    r.read (g1 :: g2 :: rest) = (.nomsg, some rest) := by
  have hb : r.readBody (g1 :: g2 :: rest) = .ok (none, rest) := by
    simp only [UBXReader.readBody, hs, bytesStream, List.take_succ_cons, List.drop_succ_cons,
      List.take_zero, List.drop_zero]
    simp [h]
  simp [UBXReader.read, hb]

theorem read_on_error {σ : Type} (r : UBXReader σ) (s : σ) (e : String)
    (hb : r.readBody s = .error e) (h : r.quitonerror = false) :
    r.read s = (.nomsg, none) := by
  simp [UBXReader.read, hb, h]



/-- C1: on a stream holding exactly the bytes B5 62 05 01 02 00 06 01 0F 38,
one `UBXReader.read` call returns a message whose class is 5, whose id is 1
and whose payload is the two bytes 06 01. -/
theorem claim1_ack_frame_decoded :
    UBXReader.read { stream := bytesStream }
        [0xb5, 0x62, 0x05, 0x01, 0x02, 0x00, 0x06, 0x01, 0x0f, 0x38]
      = (.msg { msgclass := 5, msgid := 1, payload := [0x06, 0x01], length := 2 }, some []) := by
  decide

/-- C2 counterexample: the byte string [0, 1] has one of the listed widths (2),
yet `bytes2val` with its default flag yields 1 (big-endian) while the
little-endian reading required by the claim yields 256. -/
theorem claim2_counterexample :
    ([0, 1] : Bytes).length = 2 ∧ bytes2valDefault [0, 1] ≠ intFromBytes [0, 1] .little := by
  decide

/-- C2 amended: for every byte sequence of width 1,2,3,4,5,6 or 8, `bytes2val`
with its default flag interprets the bytes as a BIG-endian integer (the
little-endian reading applies only when the bitfield flag is set). -/
theorem claim2_amended_big_endian (b : Bytes)
    (h : b.length = 1 ∨ b.length = 2 ∨ b.length = 3 ∨ b.length = 4 ∨
      b.length = 5 ∨ b.length = 6 ∨ b.length = 8) :
    bytes2valDefault b
      = ∑ i in Finset.range b.length, b.getD i 0 * 256 ^ (b.length - 1 - i) := by
  simp [bytes2valDefault, bytes2val, intFromBytes_big_sum]

/-- Witness for the amended C2 at the concrete byte string [0, 1]. -/
theorem claim2_amended_witness :
    (([0, 1] : Bytes).length = 1 ∨ ([0, 1] : Bytes).length = 2 ∨ ([0, 1] : Bytes).length = 3 ∨
      ([0, 1] : Bytes).length = 4 ∨ ([0, 1] : Bytes).length = 5 ∨ ([0, 1] : Bytes).length = 6 ∨
      ([0, 1] : Bytes).length = 8) ∧
    bytes2valDefault [0, 1]
      = ∑ i in Finset.range ([0, 1] : Bytes).length,
          ([0, 1] : Bytes).getD i 0 * 256 ^ (([0, 1] : Bytes).length - 1 - i) :=
  ⟨by decide, claim2_amended_big_endian [0, 1] (by decide)⟩

/-- C3 counterexample: the frame B5 62 05 01 02 00 06 01 00 00 carries the
trailing pair (0,0), which differs from the computed checksum (0x0F, 0x38);
yet `read` returns it as a normal message under both error policies. -/
theorem claim3_counterexample :
    ubxChecksum 5 1 2 [6, 1] = (0x0f, 0x38) ∧ ((0x0f : Nat), (0x38 : Nat)) ≠ (0, 0) ∧
    (UBXReader.read { stream := bytesStream }
        [0xb5, 0x62, 0x05, 0x01, 0x02, 0x00, 0x06, 0x01, 0x00, 0x00]).1
      = .msg ⟨5, 1, [6, 1], 2⟩ ∧
    (UBXReader.read { stream := bytesStream, quitonerror := true }
        [0xb5, 0x62, 0x05, 0x01, 0x02, 0x00, 0x06, 0x01, 0x00, 0x00]).1
      = .msg ⟨5, 1, [6, 1], 2⟩ := by
  decide

/-- C3 amended: `read` consumes the two trailing checksum bytes but never
recomputes or compares them: under every error policy (both values of
quitonerror), every frame decodes to a normal message no matter which two
checksum bytes it carries, and no ChecksumError exists. -/
theorem claim3_amended_checksum_ignored (q : Bool) (c i : Nat) (pl ck : Bytes)
    (hpl : pl.length < 65536) (hck : ck.length = 2) :
    (UBXReader.read { stream := bytesStream, quitonerror := q } (mkFrame c i pl ck)).1
      = .msg ⟨c, i, pl, pl.length⟩ := by
  have h := read_mkFrame { stream := bytesStream, quitonerror := q }
    rfl c i pl ck [] hpl hck
  rw [List.append_nil] at h
  rw [h]

/-- Witness for the amended C3 at the ACK frame carrying checksum pair (0,0),
exercised under both error policies. -/
theorem claim3_amended_witness :
    (([6, 1] : Bytes).length < 65536) ∧ (([0, 0] : Bytes).length = 2) ∧
    (UBXReader.read { stream := bytesStream, quitonerror := false }
        (mkFrame 5 1 [6, 1] [0, 0])).1 = .msg ⟨5, 1, [6, 1], 2⟩ ∧
    (UBXReader.read { stream := bytesStream, quitonerror := true }
        (mkFrame 5 1 [6, 1] [0, 0])).1 = .msg ⟨5, 1, [6, 1], 2⟩ :=
  ⟨by decide, by decide,
    claim3_amended_checksum_ignored false 5 1 [6, 1] [0, 0] (by decide) (by decide),
    claim3_amended_checksum_ignored true 5 1 [6, 1] [0, 0] (by decide) (by decide)⟩

/-- C4 counterexample: the stream B5 62 05 01 04 00 06 01 declares length 4
but only 2 payload bytes are present; `read` does not reject it under either
error policy and instead returns a message with the 2 available bytes. -/
theorem claim4_counterexample :
    (UBXReader.read { stream := bytesStream }
        [0xb5, 0x62, 0x05, 0x01, 0x04, 0x00, 0x06, 0x01]).1 = .msg ⟨5, 1, [6, 1], 2⟩ ∧
    (UBXReader.read { stream := bytesStream, quitonerror := true }
        [0xb5, 0x62, 0x05, 0x01, 0x04, 0x00, 0x06, 0x01]).1 = .msg ⟨5, 1, [6, 1], 2⟩ := by
  decide

/-- C4 amended: a frame whose declared length exceeds the payload bytes
actually present is not rejected: `read` returns a normal message holding
exactly the bytes that were present. -/
theorem claim4_amended_truncated_accepted (c i n : Nat) (rest : Bytes)
    (hn : n < 65536) (h : rest.length ≤ n) :
    (UBXReader.read { stream := bytesStream } (frameHeader c i n ++ rest)).1
      = .msg ⟨c, i, rest, rest.length⟩ := by
  rw [read_truncated { stream := bytesStream } rfl c i n hn rest h]

/-- Witness for the amended C4: declared length 4, two payload bytes present. -/
theorem claim4_amended_witness :
    ((4 : Nat) < 65536) ∧ (([6, 1] : Bytes).length ≤ 4) ∧
    (UBXReader.read { stream := bytesStream } (frameHeader 5 1 4 ++ [6, 1])).1
      = .msg ⟨5, 1, [6, 1], 2⟩ :=
  ⟨by decide, by decide,
    claim4_amended_truncated_accepted 5 1 4 [6, 1] (by decide) (by decide)⟩

/-- C5 counterexample: with the 3 garbage bytes 01 02 03 before a fully
valid ACK frame, the first `read` returns None, not the frame's message. -/
theorem claim5_counterexample :
    (UBXReader.read { stream := bytesStream }
        ([1, 2, 3] ++ [0xb5, 0x62, 0x05, 0x01, 0x02, 0x00, 0x06, 0x01, 0x0f, 0x38])).1
      = .nomsg := by
  decide

/-- C5 amended: the reader does not resynchronize: whenever the first two
stream bytes are not the UBX header, `read` consumes exactly those two bytes
and returns None, regardless of any valid frame further along the stream. -/
theorem claim5_amended_no_resync (g1 g2 : Nat) (h : [g1, g2] ≠ UBX_HDR) (rest : Bytes) :
    UBXReader.read { stream := bytesStream } (g1 :: g2 :: rest) = (.nomsg, some rest) :=
  read_no_resync { stream := bytesStream } rfl g1 g2 h rest

/-- Witness for the amended C5: garbage bytes 1, 2 followed by 3 and a valid frame. -/
theorem claim5_amended_witness :
    (([1, 2] : Bytes) ≠ UBX_HDR) ∧
    UBXReader.read { stream := bytesStream }
        [1, 2, 3, 0xb5, 0x62, 0x05, 0x01, 0x02, 0x00, 0x06, 0x01, 0x0f, 0x38]
      = (.nomsg, some [3, 0xb5, 0x62, 0x05, 0x01, 0x02, 0x00, 0x06, 0x01, 0x0f, 0x38]) :=
  ⟨by decide,
    claim5_amended_no_resync 1 2 (by decide)
      [3, 0xb5, 0x62, 0x05, 0x01, 0x02, 0x00, 0x06, 0x01, 0x0f, 0x38]⟩

/-- C6 counterexample: on the truncated stream B5 62 05 01 02 00 06 the
reader raises no incomplete-frame error when quitonerror is set and is not
silent when it is clear: both configurations return a message whose payload
is the single available byte 06. -/
theorem claim6_counterexample :
    (UBXReader.read { stream := bytesStream, quitonerror := true }
        [0xb5, 0x62, 0x05, 0x01, 0x02, 0x00, 0x06]).1 = .msg ⟨5, 1, [6], 1⟩ ∧
    (UBXReader.read { stream := bytesStream }
        [0xb5, 0x62, 0x05, 0x01, 0x02, 0x00, 0x06]).1 = .msg ⟨5, 1, [6], 1⟩ := by
  decide

/-- C6 amended: on the stream containing exactly B5 62 05 01 02 00 06, `read`
under every error policy returns a normal message whose payload is the single
payload byte that was available; no error and no silent end of results. -/
theorem claim6_amended_truncated_msg (q : Bool) :
    (UBXReader.read { stream := bytesStream, quitonerror := q }
        [0xb5, 0x62, 0x05, 0x01, 0x02, 0x00, 0x06]).1 = .msg ⟨5, 1, [6], 1⟩ := by
  cases q <;> decide

/-- C7 counterexample: a reader configured with the filter msgclass=6,
msgid=2 still returns the class-5/id-1 ACK frame. -/
theorem claim7_counterexample :
    (UBXReader.read { stream := bytesStream, msgclass := some 6, msgid := some 2 }
        [0xb5, 0x62, 0x05, 0x01, 0x02, 0x00, 0x06, 0x01, 0x0f, 0x38]).1
      = .msg ⟨5, 1, [6, 1], 2⟩ := by
  decide

/-- C7 amended: the msgclass/msgid filter options are stored by the
constructor but never consulted by `read`: for every filter configuration,
every frame on the stream is returned, matching or not. -/
theorem claim7_amended_filter_ignored (fc fi : Option Nat) (c i : Nat) (pl ck : Bytes)
    (hpl : pl.length < 65536) (hck : ck.length = 2) :
    (UBXReader.read { stream := bytesStream, msgclass := fc, msgid := fi }
        (mkFrame c i pl ck)).1
      = .msg ⟨c, i, pl, pl.length⟩ := by
  have h := read_mkFrame { stream := bytesStream, msgclass := fc, msgid := fi }
    rfl c i pl ck [] hpl hck
  rw [List.append_nil] at h
  rw [h]

/-- Witness for the amended C7: filter (6, 2) does not match the class-5/id-1
frame, which is returned anyway. -/
theorem claim7_amended_witness :
    (([6, 1] : Bytes).length < 65536) ∧ (([0x0f, 0x38] : Bytes).length = 2) ∧
    ((some 6 : Option Nat) ≠ some 5) ∧
    (UBXReader.read { stream := bytesStream, msgclass := some 6, msgid := some 2 }
        (mkFrame 5 1 [6, 1] [0x0f, 0x38])).1 = .msg ⟨5, 1, [6, 1], 2⟩ :=
  ⟨by decide, by decide, by decide,
    claim7_amended_filter_ignored (some 6) (some 2) 5 1 [6, 1] [0x0f, 0x38]
      (by decide) (by decide)⟩

/-- C8: every constructed UBXMessage satisfies length = byte count of its
payload.  The source defines no operation that mutates either field (the only
other method, a string conversion, reads msgclass and msgid), so the equality
holds for the whole lifetime of the object. -/
theorem claim8_length_invariant (c i : Nat) (p : Option Bytes) :
    (UBXMessage.make c i p).length = (UBXMessage.make c i p).payload.length := by
  cases p with
  | none => rfl
  | some bs => by_cases h : bs = [] <;> simp [UBXMessage.make, h]

/-- C9: for every v < 256^n and both bitfield flags, converting v to n bytes
with val2bytes and back with bytes2val (same flag) recovers v. -/
theorem claim9_roundtrip (v n : Nat) (f : Bool) (h : v < 256 ^ n) :
    (val2bytes v n f).map (fun bs => bytes2val bs f) = some v :=
  val2bytes_roundtrip v n f h

/-- Witness for C9 at v = 300, n = 2, both flags. -/
theorem claim9_witness :
    (300 < 256 ^ 2) ∧
    (val2bytes 300 2 false).map (fun bs => bytes2val bs false) = some 300 ∧
    (val2bytes 300 2 true).map (fun bs => bytes2val bs true) = some 300 :=
  ⟨by decide, claim9_roundtrip 300 2 false (by decide), claim9_roundtrip 300 2 true (by decide)⟩

/-- C10: when quitonerror is false, `read` propagates no exception: whenever
the body raises, the call returns None, and the result is never the
propagated-UBXStreamError outcome. -/
theorem claim10_no_error_propagation {σ : Type} (r : UBXReader σ) (s : σ)
    (h : r.quitonerror = false) :
    (∀ e, r.readBody s = .error e → r.read s = (.nomsg, none)) ∧
      ∀ e, (r.read s).1 ≠ .err e := by
  constructor
  · intro e hb
    exact read_on_error r s e hb h
  · intro e
    simp only [UBXReader.read]
    split <;> simp [h]

/-- Witness for C10 on a stream whose read operation always raises. -/
theorem claim10_witness :
    (({ stream := boomStream } : UBXReader Unit).quitonerror = false) ∧
    UBXReader.read { stream := boomStream } () = (.nomsg, none) ∧
    (UBXReader.read { stream := boomStream } ()).1 ≠ .err "Error reading UBX message: boom" := by
  refine ⟨rfl, ?ha, ?hb⟩
  · exact (claim10_no_error_propagation { stream := boomStream } () rfl).1 "boom" rfl
  · exact (claim10_no_error_propagation { stream := boomStream } () rfl).2 _


end PyUbx2
